import Mathlib

/-!
Shallow embedding of the MARCI ISIS processing pipeline
(`marci_isis_processing_v3.py`, the latest iteration of the repository,
with the v2 argument validation modelled where a claim cites it).

The filesystem of the input directory is a list of file names; external
ISIS tools are opaque and modelled by an oracle that, given the command
and the current filesystem, returns a success flag and the filesystem
after the tool ran.  Every observable action of the driver (command
invocation, log line, file unlink) is recorded in an event trace.
-/

/-- Is `ps` a prefix of `cs`?  Char-list version of string prefix test. -/
def isPrefixChars : List Char → List Char → Bool
  | [], _ => true
  | _ :: _, [] => false
  | p :: ps, c :: cs => p == c && isPrefixChars ps cs

/-- Does `cs` contain `pat` as a contiguous substring? -/
def hasInfixChars (pat : List Char) : List Char → Bool
  | [] => isPrefixChars pat []
  | c :: cs => isPrefixChars pat (c :: cs) || hasInfixChars pat cs

/-- `strContainsSub s pat`: `pat` occurs as a substring of `s`. -/
def strContainsSub (s pat : String) : Bool :=
  hasInfixChars pat.data s.data

/-- Fuel-based worker for `replaceChars`; every step consumes at least one
input character, so fuel equal to the input length is never exhausted. -/
def replaceCharsAux (pat rep : List Char) : Nat → List Char → List Char
  | _, [] => []
  | 0, l => l
  | fuel + 1, c :: cs =>
    if isPrefixChars pat (c :: cs) then
      rep ++ replaceCharsAux pat rep fuel (List.drop (pat.length - 1) cs)
    else
      c :: replaceCharsAux pat rep fuel cs

/-- Leftmost, non-overlapping replacement of `pat` by `rep`, the semantics of
Python `str.replace` for a non-empty `pat` (the only way the source uses it). -/
def replaceChars (pat rep l : List Char) : List Char :=
  replaceCharsAux pat rep l.length l

/-- Python `s.replace(pat, rep)` (all occurrences, left to right). -/
def strReplace (s pat rep : String) : String :=
  ⟨replaceChars pat.data rep.data s.data⟩

/-- The part of `cs` that precedes its last `'.'`, or `none` if `cs` has no dot. -/
def dropAfterLastDot : List Char → Option (List Char)
  | [] => none
  | c :: cs =>
    match dropAfterLastDot cs with
    | some rest => some (c :: rest)
    | none => if c = '.' then some [] else none

/-- Python `Path(f).stem` for a plain file name: the name without its last
suffix; a dot in the first position does not start a suffix. -/
def stem (f : String) : String :=
  match f.data with
  | [] => f
  | c :: cs =>
    match dropAfterLastDot cs with
    | some rest => ⟨c :: rest⟩
    | none => f

/-- Fuel-based worker for `globMatch`; every step shrinks the pattern or the
name, so fuel equal to the sum of the two lengths plus one never runs out. -/
def globMatchAux : Nat → List Char → List Char → Bool
  | 0, _, _ => false
  | _ + 1, [], [] => true
  | _ + 1, [], _ :: _ => false
  | fuel + 1, '*' :: ps, [] => globMatchAux fuel ps []
  | fuel + 1, '*' :: ps, c :: cs =>
    globMatchAux fuel ps (c :: cs) || globMatchAux fuel ('*' :: ps) cs
  | _ + 1, _ :: _, [] => false
  | fuel + 1, p :: ps, c :: cs => p == c && globMatchAux fuel ps cs

/-- Shell-glob matching with `*` wildcards (the only metacharacter the
source's patterns use). -/
def globMatch (ps cs : List Char) : Bool :=
  globMatchAux (ps.length + cs.length + 1) ps cs

/-- `pathlib.Path.glob` pattern matching: as `globMatch`, except that a `*`
pattern does not match a name starting with a dot. -/
def globMatches (pat name : String) : Bool :=
  if isPrefixChars ['.'] name.data && !isPrefixChars ['.'] pat.data then false
  else globMatch pat.data name.data

/-- The files of `fs` matching glob pattern `pat`. -/
def globFiles (fs : List String) (pat : String) : List String :=
  fs.filter (fun f => globMatches pat f)

/-- Python `sorted(...)`: lexicographically sorted copy of the list. -/
def sortFiles (l : List String) : List String :=
  List.insertionSort (· ≤ ·) l

/-- An external command: program name and argument list. -/
structure Cmd where
  prog : String
  args : List String
deriving DecidableEq, Repr

/-- An observable action of the pipeline driver. -/
inductive Event where
  | invoke (c : Cmd)
  | logInfo (msg : String)
  | logWarning (msg : String)
  | logError (msg : String)
  | unlink (f : String)
deriving DecidableEq, Repr

/-- Driver state: the files of the input directory and the event trace. -/
structure PState where
  fs : List String
  trace : List Event

/-- Behaviour of the opaque external tools: given the command and the current
filesystem, the success flag and the filesystem after the tool ran. -/
abbrev Oracle := Cmd → List String → Bool × List String

/-- The printed command line, as `' '.join(command)`. -/
def cmdLine (c : Cmd) : String :=
  String.intercalate " " (c.prog :: c.args)

/-- `run_command` of `marci_isis_processing_v3.py`: log the command line, run
the command; on failure log `fail_message` together with the failed command and
report `false` instead of raising. -/
def run_command (env : Oracle) (c : Cmd) (failMsg : String) (st : PState) :
    Bool × PState :=
  let r := env c st.fs
  if r.1 then
    (true, { fs := r.2,
             trace := st.trace ++ [.logInfo ("Running: " ++ cmdLine c), .invoke c] })
  else
    (false, { fs := r.2,
              trace := st.trace ++ [.logInfo ("Running: " ++ cmdLine c), .invoke c,
                .logError (failMsg ++ "\nCommand failed: " ++ cmdLine c)] })

/-- Stage 1 command: `marci2isis from=<img> to=<stem>.cub`. -/
def marci2isisCmd (img : String) : Cmd :=
  ⟨"marci2isis", ["from=" ++ img, "to=" ++ (stem img ++ ".cub")]⟩

/-- Stage 2 command: `spiceinit from=<cub>`. -/
def spiceCmd (cub : String) : Cmd :=
  ⟨"spiceinit", ["from=" ++ cub]⟩

/-- Stage 2 fallback command: `spiceinit from=<cub> web=true`. -/
def spiceWebCmd (cub : String) : Cmd :=
  ⟨"spiceinit", ["from=" ++ cub, "web=true"]⟩

/-- Stage 3 command: `marcical from=<cub> to=<stem>.lev1.cub`. -/
def marcicalCmd (cub : String) : Cmd :=
  ⟨"marcical", ["from=" ++ cub, "to=" ++ (stem cub ++ ".lev1.cub")]⟩

/-- Stage 4 command: `explode from=<lev1> to=<stem with ".lev1" removed>`. -/
def explodeCmd (lev1 : String) : Cmd :=
  ⟨"explode", ["from=" ++ lev1, "to=" ++ strReplace (stem lev1) ".lev1" ""]⟩

/-- Stage 5 command: `cam2map from=<band> map=<map> to=<base>.lev2.cub`. -/
def cam2mapCmd (mapT band : String) : Cmd :=
  ⟨"cam2map", ["from=" ++ band, "map=" ++ mapT,
    "to=" ++ (strReplace (stem band) ".band" "" ++ ".lev2.cub")]⟩

/-- Stage 6 command: `isis2std from=<lev2> to=<stem with ".lev2" removed>`. -/
def isis2stdCmd (lev2 : String) : Cmd :=
  ⟨"isis2std", ["from=" ++ lev2, "to=" ++ strReplace (stem lev2) ".lev2" ""]⟩

/-- `try_spiceinit_with_web`: warn and retry `spiceinit` with `web=true`. -/
def try_spiceinit_with_web (env : Oracle) (cub : String) (st : PState) : PState :=
  let st1 : PState :=
    { st with trace := st.trace ++
        [.logWarning ("Falling back to SPICE Web Services for " ++ cub)] }
  (run_command env (spiceWebCmd cub)
    ("SPICE Web Services also failed for " ++ cub) st1).2

/-- Body of the stage-1 loop: convert one `.IMG` to a `.cub`; on success, if
the output exists and the delete flag is set, unlink the input. -/
def marci2isisStep (env : Oracle) (del : Bool) (st : PState) (img : String) :
    PState :=
  let cub := stem img ++ ".cub"
  let r := run_command env (marci2isisCmd img) "" st
  if r.1 then
    if r.2.fs.contains cub && del then
      { fs := r.2.fs.erase img,
        trace := r.2.trace ++ [.unlink img, .logInfo ("Deleted: " ++ img)] }
    else r.2
  else r.2

/-- Stage 1: `marci2isis` over the sorted `*.IMG` files. -/
def stage_marci2isis (env : Oracle) (del : Bool) (st : PState) : PState :=
  (sortFiles (globFiles st.fs "*.IMG")).foldl (marci2isisStep env del) st

/-- Body of the stage-2 loop: `spiceinit`; on failure fall back to the web
service.  Never deletes anything. -/
def spiceinitStep (env : Oracle) (st : PState) (cub : String) : PState :=
  let r := run_command env (spiceCmd cub)
    ("spiceinit failed for " ++ cub ++ ", trying web...") st
  if r.1 then r.2 else try_spiceinit_with_web env cub r.2

/-- Stage 2: `spiceinit` over the sorted `*.cub` files. -/
def stage_spiceinit (env : Oracle) (st : PState) : PState :=
  (sortFiles (globFiles st.fs "*.cub")).foldl (spiceinitStep env) st

/-- Body of the stage-3 loop: calibrate one `.cub`; on success, if the output
exists and the delete flag is set, unlink the input. -/
def marcicalStep (env : Oracle) (del : Bool) (st : PState) (cub : String) :
    PState :=
  let lev1 := stem cub ++ ".lev1.cub"
  let r := run_command env (marcicalCmd cub) "" st
  if r.1 then
    if r.2.fs.contains lev1 && del then
      { fs := r.2.fs.erase cub,
        trace := r.2.trace ++ [.unlink cub, .logInfo ("Deleted: " ++ cub)] }
    else r.2
  else r.2

/-- Stage 3: `marcical` over the sorted `*.cub` files. -/
def stage_marcical (env : Oracle) (del : Bool) (st : PState) : PState :=
  (sortFiles (globFiles st.fs "*.cub")).foldl (marcicalStep env del) st

/-- Body of the stage-4 loop: explode one `.lev1.cub`; on success, if the
delete flag is set, unlink the input without checking any output. -/
def explodeStep (env : Oracle) (del : Bool) (st : PState) (lev1 : String) :
    PState :=
  let r := run_command env (explodeCmd lev1) "" st
  if r.1 then
    if del then
      { fs := r.2.fs.erase lev1,
        trace := r.2.trace ++ [.unlink lev1, .logInfo ("Deleted: " ++ lev1)] }
    else r.2
  else r.2

/-- Stage 4: `explode` over the sorted `*.lev1.cub` files. -/
def stage_explode (env : Oracle) (del : Bool) (st : PState) : PState :=
  (sortFiles (globFiles st.fs "*.lev1.cub")).foldl (explodeStep env del) st

/-- Body of the stage-5 loop: map-project one band file; the command's result
is ignored, and the input is unlinked whenever the output exists and the
delete flag is set. -/
def cam2mapStep (env : Oracle) (mapT : String) (del : Bool) (st : PState)
    (band : String) : PState :=
  let lev2 := strReplace (stem band) ".band" "" ++ ".lev2.cub"
  let r := run_command env (cam2mapCmd mapT band)
    ("cam2map failed for " ++ band) st
  if r.2.fs.contains lev2 && del then
    { fs := r.2.fs.erase band,
      trace := r.2.trace ++ [.unlink band, .logInfo ("Deleted: " ++ band)] }
  else r.2

/-- Stage 5: `cam2map` over the sorted `*.band*.cub` files. -/
def stage_cam2map (env : Oracle) (mapT : String) (del : Bool) (st : PState) :
    PState :=
  (sortFiles (globFiles st.fs "*.band*.cub")).foldl (cam2mapStep env mapT del) st

/-- Body of the stage-6 loop: export one `.lev2.cub` to PNG; never deletes. -/
def isis2stdStep (env : Oracle) (st : PState) (lev2 : String) : PState :=
  (run_command env (isis2stdCmd lev2) ("isis2std failed for " ++ lev2) st).2

/-- Stage 6: `isis2std` over the sorted `*.lev2.cub` files. -/
def stage_isis2std (env : Oracle) (st : PState) : PState :=
  (sortFiles (globFiles st.fs "*.lev2.cub")).foldl (isis2stdStep env) st

/-- `process_images` of `marci_isis_processing_v3.py`: the six stages in
order, then the completion log line. -/
def process_images (env : Oracle) (mapT : String) (del : Bool) (st : PState) :
    PState :=
  let st1 := stage_marci2isis env del st
  let st2 := stage_spiceinit env st1
  let st3 := stage_marcical env del st2
  let st4 := stage_explode env del st3
  let st5 := stage_cam2map env mapT del st4
  let st6 := stage_isis2std env st5
  { st6 with trace := st6.trace ++ [.logInfo "✅ MARCI processing complete."] }

/-- The `simplecyl` preset text of `PROJECTION_PRESETS`. -/
def simplecylText : String :=
  "Group=Mapping\n" ++
  "  TargetName=Mars\n" ++
  "  LongitudeDomain=360\n" ++
  "  ProjectionName=SimpleCylindrical\n" ++
  "  CenterLongitude=0.0\n" ++
  "  CenterLatitude=0.0\n" ++
  "End_Group\n" ++
  "End\n"

/-- The `polar` preset text of `PROJECTION_PRESETS`. -/
def polarText : String :=
  "Group=Mapping\n" ++
  "  TargetName=Mars\n" ++
  "  LongitudeDomain=360\n" ++
  "  ProjectionName=PolarStereographic\n" ++
  "  CenterLongitude=0.0\n" ++
  "  CenterLatitude=90.0\n" ++
  "  TrueScaleLatitude=90.0\n" ++
  "  MinimumLatitude=60.0\n" ++
  "  MaximumLatitude=90.0\n" ++
  "End_Group\n" ++
  "End\n"

/-- The `eqc` preset text of `PROJECTION_PRESETS`. -/
def eqcText : String :=
  "Group=Mapping\n" ++
  "  TargetName=Mars\n" ++
  "  LongitudeDomain=360\n" ++
  "  ProjectionName=Equirectangular\n" ++
  "  CenterLongitude=0.0\n" ++
  "  CenterLatitude=0.0\n" ++
  "End_Group\n" ++
  "End\n"

/-- `PROJECTION_PRESETS` as an association list in source order. -/
def PROJECTION_PRESETS : List (String × String) :=
  [("simplecyl", simplecylText), ("polar", polarText), ("eqc", eqcText)]

/-- The preset names, the `choices` list of the `--projection` argument. -/
def PRESET_NAMES : List String :=
  PROJECTION_PRESETS.map (fun p => p.1)

/-- `create_projection_map`: the text written for a known preset, or a fatal
exit with code 1 for an unknown one. -/
def create_projection_map (projection : String) : Except Nat String :=
  match PROJECTION_PRESETS.lookup projection with
  | none => Except.error 1
  | some t => Except.ok t

/-- `parse_args` of `marci_isis_processing_v3.py`.  `argparse` enforces the
required mutually exclusive `--map`/`--projection` group, the `--projection`
choices and the `--delete` choices `[0, 1]`; on any violation `argparse`
calls `parser.error`, which exits with status 2 (documented `argparse`
behaviour).  `delete?` is the already int-converted `--delete` value,
`none` when the flag is absent (default 0). -/
def parse_args (mapArg projArg : Option String) (delete? : Option Int) :
    Except Nat (Option String × Option String × Int) :=
  if mapArg.isSome && projArg.isSome then Except.error 2
  else if !mapArg.isSome && !projArg.isSome then Except.error 2
  else if (match projArg with
           | some p => !(PRESET_NAMES.contains p)
           | none => false) then Except.error 2
  else
    match delete? with
    | none => Except.ok (mapArg, projArg, 0)
    | some d => if d == 0 || d == 1 then Except.ok (mapArg, projArg, d)
                else Except.error 2

/-- `main` of `marci_isis_processing_v3.py`, returning the process exit code
and the event trace.  `fileIsFile` models `Path.is_file` for the custom
`--map` path; `fs0` is the input directory's contents.  The preset branch
writes `<projection>.map` into the directory before processing. -/
def main_v3 (env : Oracle) (fileIsFile : String → Bool)
    (mapArg projArg : Option String) (delete? : Option Int)
    (fs0 : List String) : Nat × List Event :=
  match parse_args mapArg projArg delete? with
  | Except.error c => (c, [])
  | Except.ok (m?, p?, d) =>
    match m? with
    | some m =>
      if fileIsFile m then
        let pre : List Event :=
          [.logInfo ("Using map: " ++ m),
           .logInfo "Processing directory: <dir>",
           .logInfo ("Delete intermediate files: " ++ if d == 1 then "Yes" else "No")]
        let st := process_images env m (d == 1) ⟨fs0, pre⟩
        (0, st.trace)
      else (1, [.logError ("Map template not found: " ++ m)])
    | none =>
      match p? with
      | some p =>
        (match create_projection_map p with
         | Except.error c => (c, [])
         | Except.ok _ =>
           let mapName := p ++ ".map"
           let pre : List Event :=
             [.logInfo ("Projection map template written: " ++ mapName),
              .logInfo ("Using map: " ++ mapName),
              .logInfo "Processing directory: <dir>",
              .logInfo ("Delete intermediate files: " ++ if d == 1 then "Yes" else "No")]
           let st := process_images env mapName (d == 1) ⟨fs0 ++ [mapName], pre⟩
           (0, st.trace))
      | none => (2, [])

/-- The delete-flag validation of `main` in `marci_isis_processing_v2.py`
(and the first iteration): wrong argument count, a missing map template and
a delete value other than 0 or 1 all exit with code 1. -/
def main_v2_validate (argc : Nat) (mapIsFile : Bool) (deleteArg : Int) :
    Except Nat Int :=
  if argc ≠ 3 then Except.error 1
  else if !mapIsFile then Except.error 1
  else if deleteArg == 0 || deleteArg == 1 then Except.ok deleteArg
  else Except.error 1

/-- The file a single trace event unlinks, if any. -/
def unlinkOf : Event → Option String
  | .unlink f => some f
  | _ => none

/-- The files unlinked along a trace, in order. -/
def unlinks (t : List Event) : List String :=
  t.filterMap unlinkOf

/-- The command a single trace event invokes, if any. -/
def invokeOf : Event → Option Cmd
  | .invoke c => some c
  | _ => none

/-- The commands invoked along a trace, in order. -/
def invokes (t : List Event) : List Cmd :=
  t.filterMap invokeOf

/-- The warning message of a single trace event, if any. -/
def warnOf : Event → Option String
  | .logWarning m => some m
  | _ => none

/-- The warnings logged along a trace, in order. -/
def warningsOf (t : List Event) : List String :=
  t.filterMap warnOf

/-- The error message of a single trace event, if any. -/
def errorOf : Event → Option String
  | .logError m => some m
  | _ => none

/-- The errors logged along a trace, in order. -/
def errorsOf (t : List Event) : List String :=
  t.filterMap errorOf

/-- An environment in which every external command fails and leaves the
filesystem unchanged. -/
def envFail : Oracle := fun _ fs => (false, fs)

/-- An environment in which every external command succeeds and leaves the
filesystem unchanged (outputs that should appear are pre-seeded in `fs`). -/
def envOk : Oracle := fun _ fs => (true, fs)

theorem run_command_fst (env : Oracle) (c : Cmd) (msg : String) (st : PState) :
    (run_command env c msg st).1 = (env c st.fs).1 := by
  cases h : (env c st.fs).1 <;> simp [run_command, h]

theorem run_command_snd_fs (env : Oracle) (c : Cmd) (msg : String) (st : PState) :
    (run_command env c msg st).2.fs = (env c st.fs).2 := by
  cases h : (env c st.fs).1 <;> simp [run_command, h]

theorem run_command_snd_trace (env : Oracle) (c : Cmd) (msg : String) (st : PState) :
    (run_command env c msg st).2.trace =
      st.trace ++ [.logInfo ("Running: " ++ cmdLine c), .invoke c] ++
        (if (env c st.fs).1 then ([] : List Event)
         else [.logError (msg ++ "\nCommand failed: " ++ cmdLine c)]) := by
  cases h : (env c st.fs).1 <;> simp [run_command, h]

theorem unlinks_append (s t : List Event) :
    unlinks (s ++ t) = unlinks s ++ unlinks t := by
  simp [unlinks]

theorem invokes_append (s t : List Event) :
    invokes (s ++ t) = invokes s ++ invokes t := by
  simp [invokes]

theorem warningsOf_append (s t : List Event) :
    warningsOf (s ++ t) = warningsOf s ++ warningsOf t := by
  simp [warningsOf]

theorem errorsOf_append (s t : List Event) :
    errorsOf (s ++ t) = errorsOf s ++ errorsOf t := by
  simp [errorsOf]

theorem unlinks_run_command (env : Oracle) (c : Cmd) (msg : String) (st : PState) :
    unlinks (run_command env c msg st).2.trace = unlinks st.trace := by
  rw [run_command_snd_trace, unlinks_append, unlinks_append]
  cases h : (env c st.fs).1 <;> simp [unlinks, unlinkOf]

theorem invokes_run_command (env : Oracle) (c : Cmd) (msg : String) (st : PState) :
    invokes (run_command env c msg st).2.trace = invokes st.trace ++ [c] := by
  rw [run_command_snd_trace, invokes_append, invokes_append]
  cases h : (env c st.fs).1 <;> simp [invokes, invokeOf]

theorem warningsOf_run_command (env : Oracle) (c : Cmd) (msg : String) (st : PState) :
    warningsOf (run_command env c msg st).2.trace = warningsOf st.trace := by
  rw [run_command_snd_trace, warningsOf_append, warningsOf_append]
  cases h : (env c st.fs).1 <;> simp [warningsOf, warnOf]

theorem errorsOf_run_command (env : Oracle) (c : Cmd) (msg : String) (st : PState) :
    errorsOf (run_command env c msg st).2.trace =
      errorsOf st.trace ++
        (if (env c st.fs).1 then ([] : List String)
         else [msg ++ "\nCommand failed: " ++ cmdLine c]) := by
  rw [run_command_snd_trace, errorsOf_append, errorsOf_append]
  cases h : (env c st.fs).1 <;> simp [errorsOf, errorOf]

theorem unlinks_delete_events (f m : String) :
    unlinks [Event.unlink f, Event.logInfo m] = [f] := rfl

theorem invokes_delete_events (f m : String) :
    invokes [Event.unlink f, Event.logInfo m] = [] := rfl

theorem warningsOf_delete_events (f m : String) :
    warningsOf [Event.unlink f, Event.logInfo m] = [] := rfl

theorem errorsOf_delete_events (f m : String) :
    errorsOf [Event.unlink f, Event.logInfo m] = [] := rfl

theorem unlinks_warn_event (m : String) :
    unlinks [Event.logWarning m] = [] := rfl

theorem invokes_warn_event (m : String) :
    invokes [Event.logWarning m] = [] := rfl

theorem warningsOf_warn_event (m : String) :
    warningsOf [Event.logWarning m] = [m] := rfl

theorem errorsOf_warn_event (m : String) :
    errorsOf [Event.logWarning m] = [] := rfl

theorem unlinks_marci2isisStep (env : Oracle) (del : Bool) (st : PState)
    (img : String) :
    unlinks (marci2isisStep env del st img).trace =
      unlinks st.trace ++
        (if (env (marci2isisCmd img) st.fs).1
            && (env (marci2isisCmd img) st.fs).2.contains (stem img ++ ".cub")
            && del
         then [img] else []) := by
  unfold marci2isisStep
  cases hok : (env (marci2isisCmd img) st.fs).1
  · rw [if_neg (by rw [run_command_fst, hok]; exact Bool.false_ne_true)]
    rw [unlinks_run_command]
    simp [hok]
  · rw [if_pos (by rw [run_command_fst, hok])]
    rw [run_command_snd_fs]
    cases hc : (env (marci2isisCmd img) st.fs).2.contains (stem img ++ ".cub") <;>
      cases del <;>
        simp [hok, hc, unlinks_append, unlinks_run_command, unlinks_delete_events]

theorem invokes_marci2isisStep (env : Oracle) (del : Bool) (st : PState)
    (img : String) :
    invokes (marci2isisStep env del st img).trace =
      invokes st.trace ++ [marci2isisCmd img] := by
  unfold marci2isisStep
  cases hok : (env (marci2isisCmd img) st.fs).1
  · rw [if_neg (by rw [run_command_fst, hok]; exact Bool.false_ne_true)]
    rw [invokes_run_command]
  · rw [if_pos (by rw [run_command_fst, hok])]
    rw [run_command_snd_fs]
    cases hc : (env (marci2isisCmd img) st.fs).2.contains (stem img ++ ".cub") <;>
      cases del <;>
        simp [hok, hc, invokes_append, invokes_run_command, invokes_delete_events]

theorem unlinks_marcicalStep (env : Oracle) (del : Bool) (st : PState)
    (cub : String) :
    unlinks (marcicalStep env del st cub).trace =
      unlinks st.trace ++
        (if (env (marcicalCmd cub) st.fs).1
            && (env (marcicalCmd cub) st.fs).2.contains (stem cub ++ ".lev1.cub")
            && del
         then [cub] else []) := by
  unfold marcicalStep
  cases hok : (env (marcicalCmd cub) st.fs).1
  · rw [if_neg (by rw [run_command_fst, hok]; exact Bool.false_ne_true)]
    rw [unlinks_run_command]
    simp [hok]
  · rw [if_pos (by rw [run_command_fst, hok])]
    rw [run_command_snd_fs]
    cases hc : (env (marcicalCmd cub) st.fs).2.contains (stem cub ++ ".lev1.cub") <;>
      cases del <;>
        simp [hok, hc, unlinks_append, unlinks_run_command, unlinks_delete_events]

theorem invokes_marcicalStep (env : Oracle) (del : Bool) (st : PState)
    (cub : String) :
    invokes (marcicalStep env del st cub).trace =
      invokes st.trace ++ [marcicalCmd cub] := by
  unfold marcicalStep
  cases hok : (env (marcicalCmd cub) st.fs).1
  · rw [if_neg (by rw [run_command_fst, hok]; exact Bool.false_ne_true)]
    rw [invokes_run_command]
  · rw [if_pos (by rw [run_command_fst, hok])]
    rw [run_command_snd_fs]
    cases hc : (env (marcicalCmd cub) st.fs).2.contains (stem cub ++ ".lev1.cub") <;>
      cases del <;>
        simp [hok, hc, invokes_append, invokes_run_command, invokes_delete_events]

theorem unlinks_explodeStep (env : Oracle) (del : Bool) (st : PState)
    (lev1 : String) :
    unlinks (explodeStep env del st lev1).trace =
      unlinks st.trace ++
        (if (env (explodeCmd lev1) st.fs).1 && del then [lev1] else []) := by
  unfold explodeStep
  cases hok : (env (explodeCmd lev1) st.fs).1
  · rw [if_neg (by rw [run_command_fst, hok]; exact Bool.false_ne_true)]
    rw [unlinks_run_command]
    simp [hok]
  · rw [if_pos (by rw [run_command_fst, hok])]
    cases del <;>
      simp [hok, unlinks_append, unlinks_run_command, unlinks_delete_events]

theorem invokes_explodeStep (env : Oracle) (del : Bool) (st : PState)
    (lev1 : String) :
    invokes (explodeStep env del st lev1).trace =
      invokes st.trace ++ [explodeCmd lev1] := by
  unfold explodeStep
  cases hok : (env (explodeCmd lev1) st.fs).1
  · rw [if_neg (by rw [run_command_fst, hok]; exact Bool.false_ne_true)]
    rw [invokes_run_command]
  · rw [if_pos (by rw [run_command_fst, hok])]
    cases del <;>
      simp [hok, invokes_append, invokes_run_command, invokes_delete_events]

theorem unlinks_cam2mapStep (env : Oracle) (mapT : String) (del : Bool)
    (st : PState) (band : String) :
    unlinks (cam2mapStep env mapT del st band).trace =
      unlinks st.trace ++
        (if (env (cam2mapCmd mapT band) st.fs).2.contains
              (strReplace (stem band) ".band" "" ++ ".lev2.cub")
            && del
         then [band] else []) := by
  simp only [cam2mapStep]
  rw [run_command_snd_fs]
  cases hc : (env (cam2mapCmd mapT band) st.fs).2.contains
      (strReplace (stem band) ".band" "" ++ ".lev2.cub") <;>
    cases del <;>
      simp [hc, unlinks_append, unlinks_run_command, unlinks_delete_events]

theorem invokes_cam2mapStep (env : Oracle) (mapT : String) (del : Bool)
    (st : PState) (band : String) :
    invokes (cam2mapStep env mapT del st band).trace =
      invokes st.trace ++ [cam2mapCmd mapT band] := by
  simp only [cam2mapStep]
  rw [run_command_snd_fs]
  cases hc : (env (cam2mapCmd mapT band) st.fs).2.contains
      (strReplace (stem band) ".band" "" ++ ".lev2.cub") <;>
    cases del <;>
      simp [hc, invokes_append, invokes_run_command, invokes_delete_events]

theorem unlinks_try_spiceinit_with_web (env : Oracle) (cub : String)
    (st : PState) :
    unlinks (try_spiceinit_with_web env cub st).trace = unlinks st.trace := by
  unfold try_spiceinit_with_web
  rw [unlinks_run_command]
  simp [unlinks_append, unlinks_warn_event]

theorem invokes_try_spiceinit_with_web (env : Oracle) (cub : String)
    (st : PState) :
    invokes (try_spiceinit_with_web env cub st).trace =
      invokes st.trace ++ [spiceWebCmd cub] := by
  unfold try_spiceinit_with_web
  rw [invokes_run_command]
  simp [invokes_append, invokes_warn_event]

theorem warningsOf_try_spiceinit_with_web (env : Oracle) (cub : String)
    (st : PState) :
    warningsOf (try_spiceinit_with_web env cub st).trace =
      warningsOf st.trace ++
        ["Falling back to SPICE Web Services for " ++ cub] := by
  unfold try_spiceinit_with_web
  rw [warningsOf_run_command]
  simp [warningsOf_append, warningsOf_warn_event]

theorem unlinks_spiceinitStep (env : Oracle) (st : PState) (cub : String) :
    unlinks (spiceinitStep env st cub).trace = unlinks st.trace := by
  unfold spiceinitStep
  cases hok : (env (spiceCmd cub) st.fs).1
  · rw [if_neg (by rw [run_command_fst, hok]; exact Bool.false_ne_true)]
    rw [unlinks_try_spiceinit_with_web, unlinks_run_command]
  · rw [if_pos (by rw [run_command_fst, hok])]
    rw [unlinks_run_command]

theorem invokes_spiceinitStep (env : Oracle) (st : PState) (cub : String) :
    invokes (spiceinitStep env st cub).trace =
      invokes st.trace ++
        (if (env (spiceCmd cub) st.fs).1 then [spiceCmd cub]
         else [spiceCmd cub, spiceWebCmd cub]) := by
  unfold spiceinitStep
  cases hok : (env (spiceCmd cub) st.fs).1
  · rw [if_neg (by rw [run_command_fst, hok]; exact Bool.false_ne_true)]
    rw [invokes_try_spiceinit_with_web, invokes_run_command]
    simp [hok]
  · rw [if_pos (by rw [run_command_fst, hok])]
    rw [invokes_run_command]
    simp [hok]

theorem warningsOf_spiceinitStep (env : Oracle) (st : PState) (cub : String) :
    warningsOf (spiceinitStep env st cub).trace =
      warningsOf st.trace ++
        (if (env (spiceCmd cub) st.fs).1 then []
         else ["Falling back to SPICE Web Services for " ++ cub]) := by
  unfold spiceinitStep
  cases hok : (env (spiceCmd cub) st.fs).1
  · rw [if_neg (by rw [run_command_fst, hok]; exact Bool.false_ne_true)]
    rw [warningsOf_try_spiceinit_with_web, warningsOf_run_command]
    simp [hok]
  · rw [if_pos (by rw [run_command_fst, hok])]
    rw [warningsOf_run_command]
    simp [hok]

theorem unlinks_isis2stdStep (env : Oracle) (st : PState) (lev2 : String) :
    unlinks (isis2stdStep env st lev2).trace = unlinks st.trace := by
  unfold isis2stdStep
  rw [unlinks_run_command]

theorem invokes_isis2stdStep (env : Oracle) (st : PState) (lev2 : String) :
    invokes (isis2stdStep env st lev2).trace =
      invokes st.trace ++ [isis2stdCmd lev2] := by
  unfold isis2stdStep
  rw [invokes_run_command]

theorem unlinks_foldl (step : PState → String → PState)
    (h : ∀ st f, unlinks (step st f).trace = unlinks st.trace) :
    ∀ (l : List String) (st : PState),
      unlinks (l.foldl step st).trace = unlinks st.trace := by
  intro l
  induction l with
  | nil => intro st; rfl
  | cons a t ih => intro st; rw [List.foldl_cons, ih, h]

theorem invokes_foldl (mk : String → Cmd) (step : PState → String → PState)
    (h : ∀ st f, invokes (step st f).trace = invokes st.trace ++ [mk f]) :
    ∀ (l : List String) (st : PState),
      invokes (l.foldl step st).trace = invokes st.trace ++ l.map mk := by
  intro l
  induction l with
  | nil => intro st; simp
  | cons a t ih => intro st; rw [List.foldl_cons, ih, h]; simp

theorem invokes_stage_marci2isis (env : Oracle) (del : Bool) (st : PState) :
    invokes (stage_marci2isis env del st).trace =
      invokes st.trace ++
        (sortFiles (globFiles st.fs "*.IMG")).map marci2isisCmd := by
  exact invokes_foldl marci2isisCmd (marci2isisStep env del)
    (invokes_marci2isisStep env del) _ st

theorem invokes_stage_marcical (env : Oracle) (del : Bool) (st : PState) :
    invokes (stage_marcical env del st).trace =
      invokes st.trace ++
        (sortFiles (globFiles st.fs "*.cub")).map marcicalCmd := by
  exact invokes_foldl marcicalCmd (marcicalStep env del)
    (invokes_marcicalStep env del) _ st

theorem invokes_stage_explode (env : Oracle) (del : Bool) (st : PState) :
    invokes (stage_explode env del st).trace =
      invokes st.trace ++
        (sortFiles (globFiles st.fs "*.lev1.cub")).map explodeCmd := by
  exact invokes_foldl explodeCmd (explodeStep env del)
    (invokes_explodeStep env del) _ st

theorem invokes_stage_cam2map (env : Oracle) (mapT : String) (del : Bool)
    (st : PState) :
    invokes (stage_cam2map env mapT del st).trace =
      invokes st.trace ++
        (sortFiles (globFiles st.fs "*.band*.cub")).map (cam2mapCmd mapT) := by
  exact invokes_foldl (cam2mapCmd mapT) (cam2mapStep env mapT del)
    (invokes_cam2mapStep env mapT del) _ st

theorem invokes_stage_isis2std (env : Oracle) (st : PState) :
    invokes (stage_isis2std env st).trace =
      invokes st.trace ++
        (sortFiles (globFiles st.fs "*.lev2.cub")).map isis2stdCmd := by
  exact invokes_foldl isis2stdCmd (isis2stdStep env)
    (invokes_isis2stdStep env) _ st

theorem invokes_stage_spiceinit_mem (env : Oracle) :
    ∀ (l : List String) (st : PState) (c : Cmd),
      c ∈ invokes (l.foldl (spiceinitStep env) st).trace →
      c ∈ invokes st.trace ∨ ∃ f ∈ l, c = spiceCmd f ∨ c = spiceWebCmd f := by
  intro l
  induction l with
  | nil => intro st c h; exact Or.inl h
  | cons a t ih =>
    intro st c h
    rw [List.foldl_cons] at h
    rcases ih (spiceinitStep env st a) c h with h' | ⟨f, hf, hc⟩
    · rw [invokes_spiceinitStep] at h'
      rcases List.mem_append.1 h' with h1 | h2
      · exact Or.inl h1
      · refine Or.inr ⟨a, List.mem_cons_self a t, ?_⟩
        cases hok : (env (spiceCmd a) st.fs).1 <;> rw [hok] at h2 <;> simp at h2 <;>
          tauto
    · exact Or.inr ⟨f, List.mem_cons_of_mem a hf, hc⟩

theorem unlinks_stage_marci2isis_keep (env : Oracle) (st : PState) :
    unlinks (stage_marci2isis env false st).trace = unlinks st.trace := by
  refine unlinks_foldl (marci2isisStep env false) ?_ _ st
  intro st' f
  rw [unlinks_marci2isisStep]
  simp

theorem unlinks_stage_marcical_keep (env : Oracle) (st : PState) :
    unlinks (stage_marcical env false st).trace = unlinks st.trace := by
  refine unlinks_foldl (marcicalStep env false) ?_ _ st
  intro st' f
  rw [unlinks_marcicalStep]
  simp

theorem unlinks_stage_explode_keep (env : Oracle) (st : PState) :
    unlinks (stage_explode env false st).trace = unlinks st.trace := by
  refine unlinks_foldl (explodeStep env false) ?_ _ st
  intro st' f
  rw [unlinks_explodeStep]
  simp

theorem unlinks_stage_cam2map_keep (env : Oracle) (mapT : String) (st : PState) :
    unlinks (stage_cam2map env mapT false st).trace = unlinks st.trace := by
  refine unlinks_foldl (cam2mapStep env mapT false) ?_ _ st
  intro st' f
  rw [unlinks_cam2mapStep]
  simp

theorem unlinks_stage_spiceinit (env : Oracle) (st : PState) :
    unlinks (stage_spiceinit env st).trace = unlinks st.trace := by
  exact unlinks_foldl (spiceinitStep env) (unlinks_spiceinitStep env) _ st

theorem unlinks_stage_isis2std (env : Oracle) (st : PState) :
    unlinks (stage_isis2std env st).trace = unlinks st.trace := by
  exact unlinks_foldl (isis2stdStep env) (unlinks_isis2stdStep env) _ st

theorem string_append_left_cancel {a b c : String} (h : a ++ b = a ++ c) :
    b = c := by
  have hd : a.data ++ b.data = a.data ++ c.data := by
    have h2 := congrArg String.data h
    simpa [String.data_append] using h2
  have h3 : b.data = c.data := List.append_cancel_left hd
  cases b
  cases c
  exact congrArg String.mk h3

theorem marcicalCmd_inj {f g : String} (h : marcicalCmd f = marcicalCmd g) :
    f = g := by
  have h2 := congrArg Cmd.args h
  simp only [marcicalCmd] at h2
  have h3 : "from=" ++ f = "from=" ++ g := by
    injection h2 with h4 h5
  exact string_append_left_cancel h3

theorem unlinks_complete_event (m : String) :
    unlinks [Event.logInfo m] = [] := rfl

theorem invokes_complete_event (m : String) :
    invokes [Event.logInfo m] = [] := rfl

theorem isPrefixChars_self : ∀ l : List Char, isPrefixChars l l = true := by
  intro l
  induction l with
  | nil => rfl
  | cons c cs ih => simp [isPrefixChars, ih]

theorem hasInfixChars_append_self (b : List Char) :
    ∀ a : List Char, hasInfixChars b (a ++ b) = true := by
  intro a
  induction a with
  | nil =>
    cases b with
    | nil => rfl
    | cons c cs => simp [hasInfixChars, isPrefixChars_self]
  | cons x xs ih => simp [hasInfixChars, ih]

theorem strContainsSub_append (s t : String) :
    strContainsSub (s ++ t) t = true := by
  simp [strContainsSub, String.data_append, hasInfixChars_append_self]

theorem unlinks_process_images_keep (env : Oracle) (mapT : String)
    (st : PState) :
    unlinks (process_images env mapT false st).trace = unlinks st.trace := by
  simp only [process_images]
  rw [unlinks_append, unlinks_complete_event, List.append_nil,
    unlinks_stage_isis2std, unlinks_stage_cam2map_keep,
    unlinks_stage_explode_keep, unlinks_stage_marcical_keep,
    unlinks_stage_spiceinit, unlinks_stage_marci2isis_keep]

theorem complete_log_mem (env : Oracle) (mapT : String) (del : Bool)
    (st : PState) :
    Event.logInfo "✅ MARCI processing complete." ∈
      (process_images env mapT del st).trace := by
  simp only [process_images]
  exact List.mem_append_right _ (List.mem_singleton.mpr rfl)

theorem filter_invokes_foldl (p : Cmd → Bool) (step : PState → String → PState)
    (h : ∀ st f, (invokes (step st f).trace).filter p =
      (invokes st.trace).filter p) :
    ∀ (l : List String) (st : PState),
      (invokes (l.foldl step st).trace).filter p =
        (invokes st.trace).filter p := by
  intro l
  induction l with
  | nil => intro st; rfl
  | cons a t ih => intro st; rw [List.foldl_cons, ih, h]

theorem filter_invokes_stage_spiceinit (env : Oracle) (p : Cmd → Bool)
    (hp1 : ∀ f, p (spiceCmd f) = false) (hp2 : ∀ f, p (spiceWebCmd f) = false)
    (st : PState) :
    (invokes (stage_spiceinit env st).trace).filter p =
      (invokes st.trace).filter p := by
  refine filter_invokes_foldl p (spiceinitStep env) ?_ _ st
  intro st' f
  rw [invokes_spiceinitStep, List.filter_append]
  cases hok : (env (spiceCmd f) st'.fs).1 <;>
    simp [hp1, hp2]

theorem filter_map_none (p : Cmd → Bool) (g : String → Cmd)
    (hg : ∀ f, p (g f) = false) :
    ∀ l : List String, (l.map g).filter p = [] := by
  intro l
  induction l with
  | nil => rfl
  | cons a t ih => simp [hg, ih]

theorem filter_map_all (p : Cmd → Bool) (g : String → Cmd)
    (hg : ∀ f, p (g f) = true) :
    ∀ l : List String, (l.map g).filter p = l.map g := by
  intro l
  induction l with
  | nil => rfl
  | cons a t ih => simp [hg, ih]

theorem lookup_isSome_of_contains :
    ∀ (l : List (String × String)) (p : String),
      (l.map (fun x => x.1)).contains p = true → ∃ t, l.lookup p = some t := by
  intro l
  induction l with
  | nil => intro p h; simp [List.contains] at h
  | cons a t ih =>
    intro p h
    cases hp : p == a.1
    · simp only [List.map_cons, List.contains_cons, hp, Bool.false_or] at h
      rcases ih p h with ⟨v, hv⟩
      exact ⟨v, by cases a; simp [List.lookup, hp ,hv]⟩
    · exact ⟨a.2, by cases a; simp [List.lookup, hp]⟩

/-- C1, counterexample.  The claim states that (apart from the band-explosion
stage) a stage with delete-intermediate=1 removes its input only if the
external command reported success.  In the cam2map stage the command's result
is ignored: with an environment in which every command fails, processing
`A.band1.cub` while the expected output `A1.lev2.cub` is already on disk
still unlinks the input. -/
theorem cam2map_deletes_despite_failure :
    (envFail (cam2mapCmd "polar.map" "A.band1.cub")
        ["A.band1.cub", "A1.lev2.cub"]).1 = false
  ∧ unlinks (cam2mapStep envFail "polar.map" true
        ⟨["A.band1.cub", "A1.lev2.cub"], []⟩ "A.band1.cub").trace =
      ["A.band1.cub"] :=
  ⟨rfl, by decide⟩

/-- C1, amended.  With delete-intermediate=1: the marci2isis and marcical
stages remove a processed input iff the command reported success and the
expected output exists; the explode stage removes its input iff the command
reported success, irrespective of output existence; the cam2map stage removes
its input iff the expected output exists, irrespective of reported success;
the spiceinit and isis2std stages never remove a file. -/
theorem delete_intermediate_policy (env : Oracle) (mapT : String)
    (st : PState) (f : String) :
    (unlinks (marci2isisStep env true st f).trace =
      unlinks st.trace ++
        (if (env (marci2isisCmd f) st.fs).1
            && (env (marci2isisCmd f) st.fs).2.contains (stem f ++ ".cub")
         then [f] else []))
  ∧ (unlinks (marcicalStep env true st f).trace =
      unlinks st.trace ++
        (if (env (marcicalCmd f) st.fs).1
            && (env (marcicalCmd f) st.fs).2.contains (stem f ++ ".lev1.cub")
         then [f] else []))
  ∧ (unlinks (explodeStep env true st f).trace =
      unlinks st.trace ++
        (if (env (explodeCmd f) st.fs).1 then [f] else []))
  ∧ (unlinks (cam2mapStep env mapT true st f).trace =
      unlinks st.trace ++
        (if (env (cam2mapCmd mapT f) st.fs).2.contains
              (strReplace (stem f) ".band" "" ++ ".lev2.cub")
         then [f] else []))
  ∧ (unlinks (spiceinitStep env st f).trace = unlinks st.trace)
  ∧ (unlinks (isis2stdStep env st f).trace = unlinks st.trace) := by
  refine ⟨?_, ?_, ?_, ?_, unlinks_spiceinitStep env st f,
    unlinks_isis2stdStep env st f⟩
  · rw [unlinks_marci2isisStep]
    simp
  · rw [unlinks_marcicalStep]
    simp
  · rw [unlinks_explodeStep]
    simp
  · rw [unlinks_cam2mapStep]
    simp

/-- C2.  With delete-intermediate=0, no stage of `process_images` unlinks any
file, whatever the outcomes of the external commands: the whole run adds no
unlink event to the trace. -/
theorem keep_flag_no_deletion (env : Oracle) (mapT : String) (st : PState) :
    unlinks (process_images env mapT false st).trace = unlinks st.trace :=
  unlinks_process_images_keep env mapT st

/-- C3.  When the initial `spiceinit` invocation for a file fails, the stage
logs exactly one warning for that file and issues exactly one fallback
`spiceinit` invocation carrying `web=true` for that same file (and none when
the initial invocation succeeds); the SPICE stage never deletes any file. -/
theorem spice_failure_single_web_fallback (env : Oracle) (st : PState)
    (cub : String) :
    invokes (spiceinitStep env st cub).trace =
      invokes st.trace ++
        (if (env (spiceCmd cub) st.fs).1 then [spiceCmd cub]
         else [spiceCmd cub, spiceWebCmd cub])
  ∧ warningsOf (spiceinitStep env st cub).trace =
      warningsOf st.trace ++
        (if (env (spiceCmd cub) st.fs).1 then []
         else ["Falling back to SPICE Web Services for " ++ cub])
  ∧ unlinks (stage_spiceinit env st).trace = unlinks st.trace :=
  ⟨invokes_spiceinitStep env st cub, warningsOf_spiceinitStep env st cub,
    unlinks_stage_spiceinit env st⟩

/-- C4.  An external command failure is non-fatal: `run_command` reports the
tool's outcome as a boolean instead of raising, on failure it logs an error
message that contains the failing command line, and the pipeline always runs
to completion (the completion log line is reached for every environment,
including one in which every command fails). -/
theorem command_failure_nonfatal (env : Oracle) (c : Cmd) (msg : String)
    (st : PState) (mapT : String) (del : Bool) :
    (run_command env c msg st).1 = (env c st.fs).1
  ∧ errorsOf (run_command env c msg st).2.trace =
      errorsOf st.trace ++
        (if (env c st.fs).1 then []
         else [msg ++ "\nCommand failed: " ++ cmdLine c])
  ∧ strContainsSub (msg ++ "\nCommand failed: " ++ cmdLine c) (cmdLine c) = true
  ∧ Event.logInfo "✅ MARCI processing complete." ∈
      (process_images env mapT del st).trace :=
  ⟨run_command_fst env c msg st, errorsOf_run_command env c msg st,
    strContainsSub_append _ _, complete_log_mem env mapT del st⟩

theorem filter_marci2isis_process (env : Oracle) (mapT : String) (del : Bool)
    (fs : List String) :
    ((invokes (process_images env mapT del ⟨fs, []⟩).trace).filter
        (fun c => c.prog == "marci2isis")) =
      (sortFiles (globFiles fs "*.IMG")).map marci2isisCmd := by
  simp only [process_images]
  rw [invokes_append, invokes_complete_event, List.append_nil]
  rw [invokes_stage_isis2std, List.filter_append,
    filter_map_none _ isis2stdCmd (fun f => rfl), List.append_nil]
  rw [invokes_stage_cam2map, List.filter_append,
    filter_map_none _ (cam2mapCmd mapT) (fun f => rfl), List.append_nil]
  rw [invokes_stage_explode, List.filter_append,
    filter_map_none _ explodeCmd (fun f => rfl), List.append_nil]
  rw [invokes_stage_marcical, List.filter_append,
    filter_map_none _ marcicalCmd (fun f => rfl), List.append_nil]
  rw [filter_invokes_stage_spiceinit env _ (fun f => rfl) (fun f => rfl)]
  rw [invokes_stage_marci2isis, List.filter_append,
    filter_map_all _ marci2isisCmd (fun f => rfl)]
  simp [invokes]

/-- C5.  For a directory whose contents are `fs`, a full pipeline run invokes
the first-stage command `marci2isis` exactly once per `*.IMG` file — the
invocation list is exactly the sorted list of matches, its length is the
number of `*.IMG` matches, and the processed list is a lexicographically
sorted permutation of the matches. -/
theorem pipeline_first_stage_invocations (env : Oracle) (mapT : String)
    (del : Bool) (fs : List String) :
    ((invokes (process_images env mapT del ⟨fs, []⟩).trace).filter
        (fun c => c.prog == "marci2isis")) =
      (sortFiles (globFiles fs "*.IMG")).map marci2isisCmd
  ∧ ((invokes (process_images env mapT del ⟨fs, []⟩).trace).filter
        (fun c => c.prog == "marci2isis")).length =
      (globFiles fs "*.IMG").length
  ∧ (sortFiles (globFiles fs "*.IMG")).Perm (globFiles fs "*.IMG")
  ∧ List.Sorted (· ≤ ·) (sortFiles (globFiles fs "*.IMG")) := by
  refine ⟨filter_marci2isis_process env mapT del fs, ?_, ?_, ?_⟩
  · rw [filter_marci2isis_process env mapT del fs, List.length_map]
    exact (List.perm_insertionSort (· ≤ ·) _).length_eq
  · exact List.perm_insertionSort (· ≤ ·) _
  · exact List.sorted_insertionSort (· ≤ ·) _

/-- C8.  The PNG-export stage never deletes its input: neither a single
`isis2std` loop body nor the whole stage adds an unlink event, for every
environment (the stage does not even receive the delete flag; the deletion
block is absent from the source). -/
theorem png_export_never_deletes (env : Oracle) (st : PState) (lev2 : String) :
    unlinks (isis2stdStep env st lev2).trace = unlinks st.trace
  ∧ unlinks (stage_isis2std env st).trace = unlinks st.trace :=
  ⟨unlinks_isis2stdStep env st lev2, unlinks_stage_isis2std env st⟩

/-- C9.  The map template generated for `--projection polar` is the `polar`
preset, and its text contains `ProjectionName=PolarStereographic`,
`CenterLatitude=90.0`, `TrueScaleLatitude=90.0`, `MinimumLatitude=60.0` and
`MaximumLatitude=90.0`. -/
theorem polar_preset_lines :
    create_projection_map "polar" = Except.ok polarText
  ∧ strContainsSub polarText "ProjectionName=PolarStereographic" = true
  ∧ strContainsSub polarText "CenterLatitude=90.0" = true
  ∧ strContainsSub polarText "TrueScaleLatitude=90.0" = true
  ∧ strContainsSub polarText "MinimumLatitude=60.0" = true
  ∧ strContainsSub polarText "MaximumLatitude=90.0" = true :=
  ⟨rfl, by decide, by decide, by decide, by decide, by decide⟩

/-- C10.  Every stage materializes its complete sorted input list from the
filesystem as it is when the stage starts, before invoking any command: the
invocations of stages 1 and 3–6 are exactly the sorted glob of the entry
filesystem, every stage-2 invocation concerns a file matched by the entry
glob, and a file absent from the entry filesystem — such as a `.lev1.cub`
output created while the calibration stage runs — is never an input of that
same stage in that run. -/
theorem stage_inputs_materialized (env : Oracle) (mapT : String) (del : Bool)
    (st : PState) :
    invokes (stage_marci2isis env del st).trace =
      invokes st.trace ++ (sortFiles (globFiles st.fs "*.IMG")).map marci2isisCmd
  ∧ invokes (stage_marcical env del st).trace =
      invokes st.trace ++ (sortFiles (globFiles st.fs "*.cub")).map marcicalCmd
  ∧ invokes (stage_explode env del st).trace =
      invokes st.trace ++ (sortFiles (globFiles st.fs "*.lev1.cub")).map explodeCmd
  ∧ invokes (stage_cam2map env mapT del st).trace =
      invokes st.trace ++
        (sortFiles (globFiles st.fs "*.band*.cub")).map (cam2mapCmd mapT)
  ∧ invokes (stage_isis2std env st).trace =
      invokes st.trace ++ (sortFiles (globFiles st.fs "*.lev2.cub")).map isis2stdCmd
  ∧ (∀ c ∈ invokes (stage_spiceinit env st).trace,
      c ∈ invokes st.trace ∨
        ∃ f ∈ globFiles st.fs "*.cub", c = spiceCmd f ∨ c = spiceWebCmd f)
  ∧ (∀ (fs : List String) (g : String), g ∉ fs →
      marcicalCmd g ∉ invokes (stage_marcical env del ⟨fs, []⟩).trace) := by
  refine ⟨invokes_stage_marci2isis env del st, invokes_stage_marcical env del st,
    invokes_stage_explode env del st, invokes_stage_cam2map env mapT del st,
    invokes_stage_isis2std env st, ?_, ?_⟩
  · intro c hc
    rcases invokes_stage_spiceinit_mem env _ st c hc with h | ⟨f, hf, h⟩
    · exact Or.inl h
    · exact Or.inr ⟨f, (List.perm_insertionSort (· ≤ ·) _).mem_iff.1 hf, h⟩
  · intro fs g hg hmem
    rw [invokes_stage_marcical] at hmem
    rcases List.mem_append.1 hmem with h | h
    · simp [invokes] at h
    · rcases List.mem_map.1 h with ⟨x, hx, hxeq⟩
      rw [marcicalCmd_inj hxeq] at hx
      have hx2 : g ∈ globFiles fs "*.cub" :=
        (List.perm_insertionSort (· ≤ ·) _).mem_iff.1 hx
      exact hg (List.mem_filter.1 hx2).1

/-- C10 witness: with every command succeeding, a file that is not in the
directory when the calibration stage starts is never an input of that
stage. -/
theorem stage_inputs_materialized_witness :
    marcicalCmd "Z.lev1.cub" ∉
      invokes (stage_marcical envOk true ⟨["A.cub"], []⟩).trace :=
  (stage_inputs_materialized envOk "polar.map" true
    ⟨["A.cub"], []⟩).2.2.2.2.2.2 ["A.cub"] "Z.lev1.cub" (by decide)

/-- C6, counterexample.  The claim states exit code 1 for every upfront
validation failure including bad command-line arguments; but in the latest
iteration `--delete 2` with a valid `--projection` is rejected by `argparse`,
which exits with status 2, not 1. -/
theorem invalid_delete_flag_exit_code :
    (main_v3 envFail (fun _ => true) none (some "polar") (some 2) []).1 = 2
  ∧ (2 : Nat) ≠ 1 :=
  ⟨rfl, by decide⟩

/-- C6, amended.  The latest iteration exits 0 on completion of all stages
regardless of per-file failures (any environment), exits 1 when a custom
`--map` path is not an existing file, and exits 2 — via `argparse` — on bad
command-line arguments (invalid `--delete` value, unrecognized
`--projection`, or both/neither of `--map` and `--projection`); the v2
iteration's manual validation exits 1 on a bad delete value. -/
theorem exit_code_policy (env : Oracle) (ex : String → Bool)
    (fs0 : List String) :
    (∀ p, PRESET_NAMES.contains p = true →
      (main_v3 env ex none (some p) none fs0).1 = 0)
  ∧ (∀ m, ex m = true → (main_v3 env ex (some m) none none fs0).1 = 0)
  ∧ (∀ m, ex m = false → (main_v3 env ex (some m) none none fs0).1 = 1)
  ∧ (∀ d : Int, d ≠ 0 → d ≠ 1 →
      (main_v3 env ex none (some "polar") (some d) fs0).1 = 2)
  ∧ (∀ p, PRESET_NAMES.contains p = false →
      (main_v3 env ex none (some p) none fs0).1 = 2)
  ∧ (∀ m p d, (main_v3 env ex (some m) (some p) d fs0).1 = 2)
  ∧ (∀ d : Int, d ≠ 0 → d ≠ 1 → main_v2_validate 3 true d = Except.error 1) := by
  refine ⟨?_, ?_, ?_, ?_, ?_, ?_, ?_⟩
  · intro p hp
    obtain ⟨t, ht⟩ := lookup_isSome_of_contains PROJECTION_PRESETS p hp
    have hp2 : p ∈ PRESET_NAMES := by simpa using hp
    simp [main_v3, parse_args, create_projection_map, hp2, ht]
  · intro m hm
    simp [main_v3, parse_args, hm]
  · intro m hm
    simp [main_v3, parse_args, hm]
  · intro d h0 h1
    have e0 : (d == (0 : Int)) = false := beq_eq_false_iff_ne.mpr h0
    have e1 : (d == (1 : Int)) = false := beq_eq_false_iff_ne.mpr h1
    have hc : PRESET_NAMES.contains "polar" = true := rfl
    simp [main_v3, parse_args, e0, e1, hc]
  · intro p hp
    have hp2 : p ∉ PRESET_NAMES := by simpa using hp
    simp [main_v3, parse_args, hp2]
  · intro m p d
    simp [main_v3, parse_args]
  · intro d h0 h1
    have e0 : (d == (0 : Int)) = false := beq_eq_false_iff_ne.mpr h0
    have e1 : (d == (1 : Int)) = false := beq_eq_false_iff_ne.mpr h1
    simp [main_v2_validate, e0, e1]

/-- C6 witness: the amended exit-code policy at concrete inputs. -/
theorem exit_code_policy_witness :
    (main_v3 envOk (fun _ => true) none (some "polar") none []).1 = 0
  ∧ (main_v3 envOk (fun _ => true) (some "m.map") none none []).1 = 0
  ∧ (main_v3 envOk (fun _ => false) (some "m.map") none none []).1 = 1
  ∧ (main_v3 envOk (fun _ => true) none (some "polar") (some 5) []).1 = 2
  ∧ (main_v3 envOk (fun _ => true) none (some "bogus") none []).1 = 2
  ∧ (main_v3 envOk (fun _ => true) (some "m.map") (some "polar") none []).1 = 2
  ∧ main_v2_validate 3 true 5 = Except.error 1 := by
  refine ⟨?_, ?_, ?_, ?_, ?_, ?_, ?_⟩
  · exact (exit_code_policy envOk (fun _ => true) []).1 "polar" rfl
  · exact (exit_code_policy envOk (fun _ => true) []).2.1 "m.map" rfl
  · exact (exit_code_policy envOk (fun _ => false) []).2.2.1 "m.map" rfl
  · exact (exit_code_policy envOk (fun _ => true) []).2.2.2.1 5 (by decide)
      (by decide)
  · exact (exit_code_policy envOk (fun _ => true) []).2.2.2.2.1 "bogus" rfl
  · exact (exit_code_policy envOk (fun _ => true) []).2.2.2.2.2.1 "m.map"
      "polar" none
  · exact (exit_code_policy envOk (fun _ => true) []).2.2.2.2.2.2 5 (by decide)
      (by decide)

/-- C7.  When the custom `--map` path does not name an existing file (and the
other arguments are valid), the process exits with code 1 and performs zero
stage invocations: no external command is run at all. -/
theorem missing_map_no_invocations (env : Oracle) (ex : String → Bool)
    (m : String) (delete? : Option Int) (fs0 : List String)
    (hex : ex m = false)
    (hd : delete? = none ∨ delete? = some 0 ∨ delete? = some 1) :
    (main_v3 env ex (some m) none delete? fs0).1 = 1
  ∧ invokes (main_v3 env ex (some m) none delete? fs0).2 = [] := by
  rcases hd with h | h | h <;> subst h <;>
    exact ⟨by simp [main_v3, parse_args, hex],
      by simp [main_v3, parse_args, hex, invokes, invokeOf]⟩

/-- C7 witness: a concrete nonexistent map path exits 1 with no
invocations. -/
theorem missing_map_no_invocations_witness :
    (main_v3 envOk (fun _ => false) (some "nomap.map") none none []).1 = 1
  ∧ invokes (main_v3 envOk (fun _ => false) (some "nomap.map") none none []).2
      = [] :=
  missing_map_no_invocations envOk (fun _ => false) "nomap.map" none [] rfl
    (Or.inl rfl)
